import Mathlib

/-
Verification development for the xchainjs-lib multi-chain wallet client
library.  The TypeScript sources are shallowly embedded: JS numbers used as
wallet indices / amounts / fee rates are modelled as rationals, promises that
may reject are modelled with `Except`, external collaborators (explorer REST
clients, node RPC, the cryptographic primitives) are passed in as function
parameters, and the network/crypto calls a method performs are recorded in an
explicit trace list.
-/

/-- Error taxonomy of the library; each constructor corresponds to one of the
thrown error messages in the sources. -/
inductive Err where
  /-- thrown message: client must be unlocked -/
  | clientLocked
  /-- thrown message: index must be a non-negative integer -/
  | invalidIndex
  /-- thrown message: Invalid phrase -/
  | invalidPhrase
  /-- thrown message: Phrase must be provided (xchain-bitcoincash getAddress) -/
  | phraseMustBeProvided
  /-- thrown message: Address not defined (xchain-bitcoincash getAddress) -/
  | addressNotDefined
  /-- thrown message: child does not have a privateKey (xchain-binance wallet) -/
  | noPrivateKey
  /-- a failure coming from an external explorer / node collaborator -/
  | collaborator (msg : String)
  deriving DecidableEq, Repr

/-- network selector, `Network.Mainnet` / `Network.Testnet` in the sources -/
inductive Network where
  | mainnet
  | testnet
  deriving DecidableEq, Repr

/-- JS `Number.isSafeInteger`: the value is integral and its magnitude is at
most `2^53 - 1`.  JS numbers are modelled as rationals. -/
def jsIsSafeInteger (q : ℚ) : Bool :=
  q.den == 1 && q.num.natAbs ≤ 2 ^ 53 - 1

/-- the index guard `Number.isSafeInteger(index) && index >= 0` shared by
`Client.getAddress` (xchain-client) and `Client.transfer` (xchain-litecoin). -/
def validIndex (q : ℚ) : Bool :=
  jsIsSafeInteger q && 0 ≤ q

/-- JS nullish coalescing `x ?? d` on an optional number. -/
def jsNullish (x : Option ℚ) (d : ℚ) : ℚ :=
  x.getD d

/-- JS `x || d` on an optional number: `undefined` and the falsy value `0`
both select the default. -/
def jsOr (x : Option ℚ) (d : ℚ) : ℚ :=
  match x with
  | none => d
  | some v => if v = 0 then d else v

/-! ## xchain-client: the generic `Client` base class

State of an `abstract class Client<ClientParamsType, WalletType>`: the
immutable `params` and the nullable `wallet` field (`null` = locked). -/

structure Client (P W : Type) where
  params : P
  wallet : Option W

/-- `Client.purgeClient`: sets `this.wallet = null` (the old handle's own
`purge` side effect does not touch the client state). -/
def Client.purgeClient {P W : Type} (c : Client P W) : Client P W :=
  { c with wallet := none }

/-- `Client.unlock(walletFactory)`:
first `await walletFactory(this.params)` (a rejection propagates and, being
the first statement, leaves the state untouched), then `purgeClient()`, then
`this.wallet = newWallet`.  Returns the post state and the outcome. -/
def Client.unlock {P W : Type} (c : Client P W) (walletFactory : P → Except Err W) :
    Client P W × Except Err Unit :=
  match walletFactory c.params with
  | .error e => (c, .error e)
  | .ok newWallet => ({ c.purgeClient with wallet := some newWallet }, .ok ())

/-- `Client.getAddress(index = 0)`: throws `clientLocked` when
`this.wallet === null`, then validates the index, then delegates to
`this.wallet.getAddress(index)` (passed here as `walletGetAddress` since
`WalletType` is abstract in the base class). -/
def Client.getAddress {P W : Type} (walletGetAddress : W → ℚ → Except Err String)
    (c : Client P W) (index : ℚ) : Except Err String :=
  match c.wallet with
  | none => .error .clientLocked
  | some w =>
    if !(validIndex index) then .error .invalidIndex
    else walletGetAddress w index

/-! ## xchain-client: `Client.bindFactory` prototype walk

`bindFactory` collects init hooks by walking
`for (let prototype = out; prototype !== Object.prototype;
      prototype = Object.getPrototypeOf(prototype))`
and testing `if ('init' in prototype && typeof prototype.init === 'function')
inits.unshift(prototype.init)`.

A prototype chain is modelled as the list of prototype objects from the most
derived class to the base class (excluding `Object.prototype`); each level
records which init function (identified by a number) it declares as an own
property.  The JS `in` operator and the property read `prototype.init` both
resolve through the remaining chain, which `resolveInit` models. -/

structure ProtoLevel where
  ownInit : Option ℕ
  deriving DecidableEq, Repr

/-- property lookup of `init` starting at a prototype object: the first own
`init` found walking towards the base. -/
def resolveInit : List ProtoLevel → Option ℕ
  | [] => none
  | l :: rest =>
    match l.ownInit with
    | some f => some f
    | none => resolveInit rest

/-- the non-empty suffixes of the chain, i.e. the view of the chain from each
prototype object the `for` loop visits after the instance. -/
def protoTails : List ProtoLevel → List (List ProtoLevel)
  | [] => []
  | l :: rest => (l :: rest) :: protoTails rest

/-- the init functions `bindFactory` actually executes, in execution order:
the loop visits the instance (which resolves `init` through the whole chain)
and then every prototype level, `unshift`-ing each resolved `init`, and the
collected list is then run front to back. -/
def executedInits (chain : List ProtoLevel) : List ℕ :=
  ((chain :: protoTails chain).filterMap resolveInit).reverse

/-! ## the shared three-tier fee-rate schedule -/

/-- `FeeRates`: the `{average, fast, fastest}` triple. -/
structure FeeRates where
  average : ℚ
  fast : ℚ
  fastest : ℚ
  deriving DecidableEq, Repr

namespace Ltc

/-! ### xchain-litecoin `Client` -/

/-- `Client.getFeeRates` (xchain-litecoin), applied to the sample
`nextBlockFeeRate` obtained from `sochain.getSuggestedTxFee()`:
`{average: nextBlockFeeRate * 0.5, fast: nextBlockFeeRate * 1,
  fastest: nextBlockFeeRate * 5}`. -/
def getFeeRates (nextBlockFeeRate : ℚ) : FeeRates :=
  { average := nextBlockFeeRate * (1 / 2)
    fast := nextBlockFeeRate * 1
    fastest := nextBlockFeeRate * 5 }

/-- the litecoin `Wallet` capability as used by the client: `getAddress` and
`getLtcKeys` (key pairs are opaque, identified by a number). -/
structure Wallet where
  getAddress : ℚ → Except Err String
  getLtcKeys : ℚ → Except Err ℕ

/-- `TxParams & { feeRate?: FeeRate }` as consumed by `transfer`. -/
structure TxParams where
  walletIndex : Option ℚ
  amount : ℚ
  recipient : String
  memo : Option String
  feeRate : Option ℚ

/-- one collaborator (network) call performed during `transfer`, together
with the arguments relevant to the claims. -/
inductive Call where
  /-- `sochain.getSuggestedTxFee()` via `this.getFeeRates()` -/
  | suggestedFee
  /-- `Utils.buildTx({... feeRate, sender ...})` (fetches UTXOs) -/
  | buildTx (sender : String) (feeRate : ℚ)
  /-- `Utils.broadcastTx({... txHex ...})` -/
  | broadcast (txHex : String)
  deriving DecidableEq, Repr

/-- the external collaborators of `transfer`: the suggested-fee sample the
explorer returns, the transaction builder (UTXO fetch may fail), the local
sign/finalize/extract step (`psbt.signAllInputs`; `psbt.finalizeAllInputs`;
`psbt.extractTransaction().toHex()`, collapsed to one pure function since the
crypto is an external primitive), and the node broadcast. -/
structure Deps where
  suggestedFee : ℚ
  buildTx : String → ℚ → TxParams → Except Err ℕ
  toTxHex : ℕ → ℕ → String
  broadcastTx : String → Except Err String

/-- the fee-resolution line of the litecoin `transfer`:
`params.feeRate ?? (await this.getFeeRates())[FeeOption.Fast]`, applied to
the suggested-fee sample the explorer would return. -/
def resolveFeeRate (sample : ℚ) (params : TxParams) : ℚ :=
  match params.feeRate with
  | some r => r
  | none => (getFeeRates sample).fast

/-- the collaborator calls the fee-resolution line performs: the suggested
fee is looked up exactly when the caller supplied no fee rate. -/
def feeResolutionCalls (params : TxParams) : List Call :=
  match params.feeRate with
  | some _ => []
  | none => [.suggestedFee]

/-- `Client.transfer` (xchain-litecoin): lock check, index guard
(`params.walletIndex ?? 0`), `wallet.getLtcKeys(index)`, fee-rate resolution
`params.feeRate ?? (await this.getFeeRates())[FeeOption.Fast]`,
`Utils.buildTx` with `sender: await this.getAddress(index)`, local signing,
then broadcast.  Returns the collaborator-call trace and the outcome. -/
def transfer {P : Type} (c : Client P Wallet) (deps : Deps) (params : TxParams) :
    List Call × Except Err String :=
  match c.wallet with
  | none => ([], .error .clientLocked)
  | some w =>
    let index := jsNullish params.walletIndex 0
    if !(validIndex index) then ([], .error .invalidIndex)
    else
      match w.getLtcKeys index with
      | .error e => ([], .error e)
      | .ok ltcKeys =>
        let feeCalls := feeResolutionCalls params
        let feeRate := resolveFeeRate deps.suggestedFee params
        match Client.getAddress (fun w i => w.getAddress i) c index with
        | .error e => (feeCalls, .error e)
        | .ok sender =>
          match deps.buildTx sender feeRate params with
          | .error e => (feeCalls ++ [.buildTx sender feeRate], .error e)
          | .ok psbt =>
            let txHex := deps.toTxHex psbt ltcKeys
            match deps.broadcastTx txHex with
            | .error e => (feeCalls ++ [.buildTx sender feeRate, .broadcast txHex], .error e)
            | .ok hash => (feeCalls ++ [.buildTx sender feeRate, .broadcast txHex], .ok hash)

/-! ### xchain-litecoin `Client.getTransactions` -/

/-- one entry of a raw transaction's `inputs` / `outputs` (`TxIO`). -/
structure TxIO where
  address : String
  value : ℚ
  ioType : String
  deriving DecidableEq, Repr

/-- the raw transaction returned by `sochain.getTx`. -/
structure RawTx where
  txid : String
  time : ℤ
  inputs : List TxIO
  outputs : List TxIO
  deriving DecidableEq, Repr

/-- the `Tx` value assembled for one raw transaction: `from` maps the inputs,
`to` maps the outputs with `nulldata` outputs filtered out. -/
structure Tx where
  txFrom : List (String × ℚ)
  txTo : List (String × ℚ)
  time : ℤ
  hash : String
  deriving DecidableEq, Repr

/-- conversion of one `rawTx` into a `Tx` inside the `getTransactions` loop. -/
def convertTx (rawTx : RawTx) : Tx :=
  { txFrom := rawTx.inputs.map (fun i => (i.address, i.value))
    txTo := (rawTx.outputs.filter (fun i => i.ioType ≠ "nulldata")).map
      (fun i => (i.address, i.value))
    time := rawTx.time
    hash := rawTx.txid }

/-- `response.txs.filter((_, index) => offset <= index && index < offset + limit)`:
the page of transaction ids selected by the offset/limit window. -/
def txPage (txids : List String) (offset limit : ℕ) : List String :=
  ((txids.enum.filter (fun p => offset ≤ p.1 && p.1 < offset + limit)).map Prod.snd)

/-- the `for (const txItem of txs) { const rawTx = await sochain.getTx(...) ... }`
loop: fetches every transaction of the page in order, converting each; the
first rejection aborts the whole loop. -/
def fetchAll (getTx : String → Except Err RawTx) : List String → Except Err (List Tx)
  | [] => .ok []
  | hash :: rest =>
    match getTx hash with
    | .error e => .error e
    | .ok rawTx =>
      match fetchAll getTx rest with
      | .error e => .error e
      | .ok txs => .ok (convertTx rawTx :: txs)

/-- the result page `{ total, txs }`. -/
structure TxsPage where
  total : ℕ
  txs : List Tx
  deriving DecidableEq, Repr

/-- the history collaborators: `sochain.getAddress` (yielding the full txid
list of the address) and `sochain.getTx`. -/
structure HistDeps where
  getAddressTxs : Except Err (List String)
  getTx : String → Except Err RawTx

/-- `Client.getTransactions` (xchain-litecoin): defaults
`offset ?? 0` / `limit ?? 10`, fetches the address txid list, takes
`total = response.txs.length`, then fetches and converts every transaction of
the selected page. -/
def getTransactions (deps : HistDeps) (offset? limit? : Option ℕ) : Except Err TxsPage :=
  match deps.getAddressTxs with
  | .error e => .error e
  | .ok txids =>
    match fetchAll deps.getTx (txPage txids (offset?.getD 0) (limit?.getD 10)) with
    | .error e => .error e
    | .ok txs => .ok { total := txids.length, txs := txs }

end Ltc

namespace Bch

/-! ### xchain-bitcoincash `Client` (the older, standalone client class:
its lock state is the `phrase` field, with the empty string meaning locked) -/

/-- state of the bitcoincash `Client`: `network`, `phrase` and
`rootDerivationPaths` (the `haskoinUrl`/`nodeUrl`/`nodeAuth` endpoints are
only consumed by collaborators and are left inside them). -/
structure ClientState where
  network : Network
  phrase : String
  rootDerivationPaths : Network → String

/-- the cryptographic primitives used by `getAddress` / `transfer`:
`getBCHKeys` (seed derivation, may fail), `keys.getAddress(index)`, and
`utils.stripPrefix(utils.toCashAddress(address))` composed into one step. -/
structure Crypto where
  getBCHKeys : String → String → Except Err ℕ
  keyGetAddress : ℕ → ℚ → String
  toCashStrip : String → String

/-- `Client.getFullDerivationPath(index)`:
`this.rootDerivationPaths[this.network] + index`. -/
def getFullDerivationPath (c : ClientState) (index : ℚ) : String :=
  c.rootDerivationPaths c.network ++ toString index

/-- `Client.getAddress(index = 0)` (xchain-bitcoincash): requires a phrase;
derives the key pair at the full derivation path, takes
`keys.getAddress(index)` and normalizes it; any derivation failure is caught
and rethrown as `Address not defined`. -/
def getAddress (crypto : Crypto) (c : ClientState) (index : ℚ) : Except Err String :=
  if c.phrase ≠ "" then
    match crypto.getBCHKeys c.phrase (getFullDerivationPath c index) with
    | .error _ => .error .addressNotDefined
    | .ok keys => .ok (crypto.toCashStrip (crypto.keyGetAddress keys index))
  else .error .phraseMustBeProvided

/-- the `rates` triple computed by `Client.getFeesWithRates` (xchain-bitcoincash)
from the `nextBlockFeeRate` sample returned by `getSuggestedFee()`:
`{fastest: nextBlockFeeRate * 5, fast: nextBlockFeeRate * 1,
  average: nextBlockFeeRate * 0.5}`. -/
def feeRatesOfSample (nextBlockFeeRate : ℚ) : FeeRates :=
  { fastest := nextBlockFeeRate * 5
    fast := nextBlockFeeRate * 1
    average := nextBlockFeeRate * (1 / 2) }

/-- `Client.getFeeRates` (xchain-bitcoincash): the `rates` of
`getFeesWithRates()`; a collaborator failure propagates. -/
def getFeeRates (suggestedFee : Except Err ℚ) : Except Err FeeRates :=
  match suggestedFee with
  | .error e => .error e
  | .ok sample => .ok (feeRatesOfSample sample)

/-- `TxParams & { feeRate?: FeeRate }` as consumed by the bitcoincash
`transfer`. -/
structure TxParams where
  walletIndex : Option ℚ
  amount : ℚ
  recipient : String
  memo : Option String
  feeRate : Option ℚ

/-- one collaborator or key-derivation call performed during the bitcoincash
`transfer`, with the arguments relevant to the claims. -/
inductive Call where
  /-- `getSuggestedFee()` via `this.getFeeRates()` -/
  | suggestedFee
  /-- `utils.buildTx({... feeRate, sender ...})` (fetches UTXOs) -/
  | buildTx (sender : String) (feeRate : ℚ)
  /-- `this.getBCHKeys(this.phrase, derivationPath)` -/
  | getKeys (derivationPath : String)
  /-- `broadcastTx({... txHex ...})` -/
  | broadcast (txHex : String)
  deriving DecidableEq, Repr

/-- the fee-resolution line of the bitcoincash `transfer`:
`params.feeRate || (await this.getFeeRates()).fast` — a missing *or falsy
(zero)* caller value selects the fast tier; a collaborator failure then
propagates. -/
def resolveFeeRate (suggestedFee : Except Err ℚ) (params : TxParams) :
    Except Err ℚ :=
  match params.feeRate with
  | some r =>
    if r = 0 then
      match getFeeRates suggestedFee with
      | .error e => .error e
      | .ok rates => .ok rates.fast
    else .ok r
  | none =>
    match getFeeRates suggestedFee with
    | .error e => .error e
    | .ok rates => .ok rates.fast

/-- the collaborator calls the bitcoincash fee-resolution line performs: the
suggested fee is looked up when the caller supplied no fee rate or the falsy
fee rate `0`. -/
def feeResolutionCalls (params : TxParams) : List Call :=
  match params.feeRate with
  | some r => if r = 0 then [.suggestedFee] else []
  | none => [.suggestedFee]

/-- the collaborators of the bitcoincash `transfer`: the crypto primitives,
the suggested-fee lookup (may fail, failure propagates), the transaction
builder, the sign-every-input/build/serialize step (collapsed into one pure
function of builder and key pair), and the node broadcast. -/
structure Deps where
  crypto : Crypto
  suggestedFee : Except Err ℚ
  buildTx : String → ℚ → TxParams → Except Err ℕ
  buildToHex : ℕ → ℕ → String
  broadcastTx : String → Except Err String

/-- `Client.transfer` (xchain-bitcoincash):
`index = params.walletIndex || 0`,
`derivationPath = rootDerivationPaths[network] + index`,
`feeRate = params.feeRate || (await this.getFeeRates()).fast`,
`utils.buildTx` with `sender: await this.getAddress()` (no argument: the
default index 0), then `this.getBCHKeys(this.phrase, derivationPath)`,
signing of every input, serialization and broadcast.  Returns the call trace
and the outcome. -/
def transfer (deps : Deps) (c : ClientState) (params : TxParams) :
    List Call × Except Err String :=
  let index := jsOr params.walletIndex 0
  let derivationPath := c.rootDerivationPaths c.network ++ toString index
  let feeCalls := feeResolutionCalls params
  match resolveFeeRate deps.suggestedFee params with
  | .error e => (feeCalls, .error e)
  | .ok feeRate =>
    match getAddress deps.crypto c 0 with
    | .error e => (feeCalls, .error e)
    | .ok sender =>
      match deps.buildTx sender feeRate params with
      | .error e => (feeCalls ++ [.buildTx sender feeRate], .error e)
      | .ok builder =>
        match deps.crypto.getBCHKeys c.phrase derivationPath with
        | .error e => (feeCalls ++ [.buildTx sender feeRate, .getKeys derivationPath], .error e)
        | .ok keyPair =>
          let txHex := deps.buildToHex builder keyPair
          match deps.broadcastTx txHex with
          | .error e =>
            (feeCalls ++ [.buildTx sender feeRate, .getKeys derivationPath, .broadcast txHex],
              .error e)
          | .ok hash =>
            (feeCalls ++ [.buildTx sender feeRate, .getKeys derivationPath, .broadcast txHex],
              .ok hash)

end Bch

namespace Btc

/-! ### xchain-bitcoin `sochain-api.getSuggestedTxFee` -/

/-- `DEFAULT_SUGGESTED_TRANSACTION_FEE` (xchain-bitcoin sochain-api). -/
def DEFAULT_SUGGESTED_TRANSACTION_FEE : ℚ := 127

/-- the body of the Bitgo fee-estimate response. -/
structure FeeEstimateResponse where
  feePerKb : ℚ
  deriving DecidableEq, Repr

/-- `getSuggestedTxFee` (xchain-bitcoin sochain-api): on success returns
`response.data.feePerKb / 1000`; any request failure is caught and the
fallback constant is returned instead. -/
def getSuggestedTxFee (response : Except Err FeeEstimateResponse) : ℚ :=
  match response with
  | .ok r => r.feePerKb / 1000
  | .error _ => DEFAULT_SUGGESTED_TRANSACTION_FEE

end Btc

namespace Bnb

/-! ### xchain-binance `DefaultWallet` -/

/-- `WalletParams` of xchain-client as used by the wallets. -/
structure WalletParams where
  network : Network
  getFullDerivationPath : ℚ → String

/-- the cryptographic primitives of the binance wallet: phrase validation,
`getSeed`, `bip32.fromSeed(seed).derivePath(path).privateKey` (absent when
the node has no private key), and `crypto.getAddressFromPrivateKey`. -/
structure Crypto where
  validatePhrase : String → Bool
  getSeed : String → ℕ
  fromSeedDerivePath : ℕ → String → Option ℕ
  getAddressFromPrivateKey : ℕ → String → String

/-- state of a constructed `DefaultWallet`: the captured `params` and
`phrase`. -/
structure Wallet where
  params : WalletParams
  phrase : String

/-- `DefaultWallet.create(phrase)` applied to `params`: validates the phrase
(`Invalid phrase` otherwise) and constructs the wallet. -/
def create (crypto : Crypto) (phrase : String) (params : WalletParams) :
    Except Err Wallet :=
  if !(crypto.validatePhrase phrase) then .error .invalidPhrase
  else .ok { params := params, phrase := phrase }

/-- `DefaultWallet.getPrivateKey(index)`: derives the bip32 node at the full
derivation path of `index` from the seed of the stored phrase. -/
def getPrivateKey (crypto : Crypto) (w : Wallet) (index : ℚ) : Except Err ℕ :=
  match crypto.fromSeedDerivePath (crypto.getSeed w.phrase)
      (w.params.getFullDerivationPath index) with
  | none => .error .noPrivateKey
  | some k => .ok k

/-- `DefaultWallet.getAddress(index)`: the bech32 address of the derived
private key, with prefix `tbnb` on testnet and `bnb` otherwise. -/
def getAddress (crypto : Crypto) (w : Wallet) (index : ℚ) : Except Err String :=
  match getPrivateKey crypto w index with
  | .error e => .error e
  | .ok privateKey =>
    .ok (crypto.getAddressFromPrivateKey privateKey
      (if w.params.network = Network.testnet then "tbnb" else "bnb"))

end Bnb

namespace Cosmos

/-! ### xchain-cosmos `DefaultWallet` -/

/-- the cosmos SDK primitive used by `getAddress`:
`sdkClient.getPrivKeyFromMnemonic` composed with `getAddressFromPrivKey`. -/
structure Crypto where
  validatePhrase : String → Bool
  getPrivKeyFromMnemonic : String → String → ℕ
  getAddressFromPrivKey : ℕ → String

/-- state of a constructed cosmos `DefaultWallet`. -/
structure Wallet where
  getFullDerivationPath : ℚ → String
  phrase : String

/-- `DefaultWallet.create(phrase)` applied to `params` (only the derivation
path template of the params is retained). -/
def create (crypto : Crypto) (phrase : String)
    (getFullDerivationPath : ℚ → String) : Except Err Wallet :=
  if !(crypto.validatePhrase phrase) then .error .invalidPhrase
  else .ok { getFullDerivationPath := getFullDerivationPath, phrase := phrase }

/-- `DefaultWallet.getAddress(index)`: the address of the private key derived
from the stored mnemonic at the full derivation path of `index`. -/
def getAddress (crypto : Crypto) (w : Wallet) (index : ℚ) : Except Err String :=
  .ok (crypto.getAddressFromPrivKey
    (crypto.getPrivKeyFromMnemonic w.phrase (w.getFullDerivationPath index)))

end Cosmos

/-! ## Claim theorems -/

/-- C1: for every client and every wallet factory that fails, `unlock`
propagates the factory's error and leaves the client's wallet state
unchanged: the previously attached wallet handle is not purged and a
subsequent `getAddress` with it still succeeds, because the old handle is
purged only after the new handle has been constructed successfully. -/
theorem unlock_failure_preserves_wallet {P W : Type} (c : Client P W)
    (walletFactory : P → Except Err W) (e : Err)
    (hf : walletFactory c.params = .error e)
    (w : W) (hw : c.wallet = some w)
    (gA : W → ℚ → Except Err String) (index : ℚ) (a : String)
    (hidx : validIndex index = true) (ha : gA w index = .ok a) :
    (c.unlock walletFactory).2 = .error e ∧
    (c.unlock walletFactory).1 = c ∧
    Client.getAddress gA (c.unlock walletFactory).1 index = .ok a := by
  have hu : c.unlock walletFactory = (c, .error e) := by
    unfold Client.unlock
    rw [hf]
  refine ⟨by rw [hu], by rw [hu], ?_⟩
  rw [hu]
  unfold Client.getAddress
  rw [hw, hidx]
  simpa using ha

/-- C1 witness: a concrete locked-in instance of the theorem. -/
theorem unlock_failure_preserves_wallet_witness :
    ((⟨0, some ()⟩ : Client ℕ Unit).unlock fun _ => .error .invalidPhrase).2 =
        .error .invalidPhrase ∧
    ((⟨0, some ()⟩ : Client ℕ Unit).unlock fun _ => .error .invalidPhrase).1 =
        (⟨0, some ()⟩ : Client ℕ Unit) ∧
    Client.getAddress (fun _ _ => .ok "bnb1addr")
      ((⟨0, some ()⟩ : Client ℕ Unit).unlock fun _ => .error .invalidPhrase).1 0 =
        .ok "bnb1addr" :=
  unlock_failure_preserves_wallet ⟨0, some ()⟩ (fun _ => .error .invalidPhrase)
    .invalidPhrase rfl () rfl (fun _ _ => .ok "bnb1addr") 0 "bnb1addr" rfl rfl

/-- C2: evidence that `bindFactory` does not run every init step exactly
once.  For the chain Base (declaring init `0`) with one subclass declaring
its own init `1`, the executed sequence is `[0, 1, 1]`: the derived init runs
twice, because the walk starts at the instance and the JS `in` operator plus
the property read both see inherited members.  Even for a single-subclass
chain that declares no init of its own (the shape of every concrete client in
the repository, e.g. the litecoin client over the base client), the base init
runs three times. -/
theorem bindFactory_init_duplication :
    executedInits [⟨some 1⟩, ⟨some 0⟩] = [0, 1, 1] ∧
    (executedInits [⟨some 1⟩, ⟨some 0⟩]).count 1 = 2 ∧
    executedInits [⟨none⟩, ⟨some 0⟩] = [0, 0, 0] := by decide

/-- C3: on an unlocked client, a wallet index that is negative or not a safe
integer makes `Client.getAddress` (xchain-client) and `Client.transfer`
(xchain-litecoin) fail with the invalid-index error; the empty trace and the
quantification over every wallet and every collaborator show that no network
or cryptographic work is performed. -/
theorem invalid_index_fails_fast :
    (∀ (P W : Type) (gA : W → ℚ → Except Err String) (c : Client P W) (w : W)
        (index : ℚ), c.wallet = some w → validIndex index = false →
        Client.getAddress gA c index = .error .invalidIndex) ∧
    (∀ (P : Type) (c : Client P Ltc.Wallet) (w : Ltc.Wallet) (deps : Ltc.Deps)
        (params : Ltc.TxParams) (index : ℚ),
        c.wallet = some w → params.walletIndex = some index →
        validIndex index = false →
        Ltc.transfer c deps params = ([], .error .invalidIndex)) := by
  constructor
  · intro P W gA c w index hw hidx
    unfold Client.getAddress
    rw [hw, hidx]
    rfl
  · intro P c w deps params index hw hi hidx
    unfold Ltc.transfer
    rw [hw]
    simp only [jsNullish, hi, Option.getD_some, hidx, Bool.not_false, if_pos]

/-- C3 witness: index `-1` for `getAddress` and the non-integral index `1/2`
for the litecoin `transfer`, on concrete unlocked clients. -/
theorem invalid_index_fails_fast_witness :
    Client.getAddress (fun (_ : Unit) _ => .ok "a") (⟨(), some ()⟩ : Client Unit Unit)
        (-1) = .error .invalidIndex ∧
    Ltc.transfer (⟨(), some ⟨fun _ => .ok "addr", fun _ => .ok 0⟩⟩ : Client Unit Ltc.Wallet)
        ⟨1, fun _ _ _ => .ok 0, fun _ _ => "hex", fun _ => .ok "txid"⟩
        ⟨some (1 / 2), 1, "rcpt", none, none⟩ = ([], .error .invalidIndex) :=
  ⟨invalid_index_fails_fast.1 Unit Unit _ _ () (-1) rfl rfl,
    invalid_index_fails_fast.2 Unit _ _ _ _ (1 / 2) rfl rfl
      (by norm_num [validIndex, jsIsSafeInteger])⟩

/-- C4: for every non-negative collaborator sample `s`, the litecoin
`getFeeRates` and the `rates` of the bitcoincash `getFeesWithRates` are
exactly `{average: 0.5 * s, fast: 1 * s, fastest: 5 * s}`, and the triple
satisfies `average ≤ fast ≤ fastest`. -/
theorem feeRate_schedule (s : ℚ) (hs : 0 ≤ s) :
    Ltc.getFeeRates s = ⟨0.5 * s, 1 * s, 5 * s⟩ ∧
    Bch.feeRatesOfSample s = ⟨0.5 * s, 1 * s, 5 * s⟩ ∧
    ((Ltc.getFeeRates s).average ≤ (Ltc.getFeeRates s).fast ∧
      (Ltc.getFeeRates s).fast ≤ (Ltc.getFeeRates s).fastest) ∧
    ((Bch.feeRatesOfSample s).average ≤ (Bch.feeRatesOfSample s).fast ∧
      (Bch.feeRatesOfSample s).fast ≤ (Bch.feeRatesOfSample s).fastest) := by
  unfold Ltc.getFeeRates Bch.feeRatesOfSample
  refine ⟨by simp only [FeeRates.mk.injEq]; refine ⟨by ring, by ring, by ring⟩,
    by simp only [FeeRates.mk.injEq]; refine ⟨by ring, by ring, by ring⟩,
    ⟨?_, ?_⟩, ⟨?_, ?_⟩⟩ <;> simp only [] <;> nlinarith [hs]

/-- every call the litecoin fee-resolution line records is the suggested-fee
lookup. -/
theorem ltc_feeResolutionCalls_sub (params : Ltc.TxParams) :
    ∀ call ∈ Ltc.feeResolutionCalls params, call = Ltc.Call.suggestedFee := by
  unfold Ltc.feeResolutionCalls
  cases params.feeRate <;> simp

/-- master trace lemma for the litecoin `transfer`: every recorded call is
either one of the fee-resolution calls, a `buildTx` carrying the resolved fee
rate, or a broadcast. -/
theorem ltc_transfer_trace_sub {P : Type} (c : Client P Ltc.Wallet)
    (deps : Ltc.Deps) (params : Ltc.TxParams) :
    ∀ call ∈ (Ltc.transfer c deps params).1,
      call ∈ Ltc.feeResolutionCalls params ∨
      (∃ s, call = Ltc.Call.buildTx s (Ltc.resolveFeeRate deps.suggestedFee params)) ∨
      (∃ hex, call = Ltc.Call.broadcast hex) := by
  intro call hm
  unfold Ltc.transfer at hm
  dsimp only at hm
  split at hm
  · simp at hm
  · split at hm
    · simp at hm
    · split at hm
      · simp at hm
      · split at hm
        · exact Or.inl hm
        · split at hm
          · rcases List.mem_append.1 hm with h | h
            · exact Or.inl h
            · simp only [List.mem_singleton] at h
              exact Or.inr (Or.inl ⟨_, h⟩)
          · split at hm <;>
            · rcases List.mem_append.1 hm with h | h
              · exact Or.inl h
              · simp only [List.mem_cons, List.not_mem_nil, or_false] at h
                rcases h with h | h
                · exact Or.inr (Or.inl ⟨_, h⟩)
                · exact Or.inr (Or.inr ⟨_, h⟩)

/-- every call the bitcoincash fee-resolution line records is the
suggested-fee lookup. -/
theorem bch_feeResolutionCalls_sub (params : Bch.TxParams) :
    ∀ call ∈ Bch.feeResolutionCalls params, call = Bch.Call.suggestedFee := by
  unfold Bch.feeResolutionCalls
  cases params.feeRate with
  | none => simp
  | some r =>
    simp only []
    split <;> simp

/-- master trace lemma for the bitcoincash `transfer`: every recorded call is
one of the fee-resolution calls, a `buildTx` carrying the resolved fee rate
and the address derived at index 0, the key derivation at the path of the
caller-selected wallet index, or a broadcast. -/
theorem bch_transfer_trace_sub (deps : Bch.Deps) (c : Bch.ClientState)
    (params : Bch.TxParams) :
    ∀ call ∈ (Bch.transfer deps c params).1,
      call ∈ Bch.feeResolutionCalls params ∨
      (∃ s fr, call = Bch.Call.buildTx s fr ∧
        Bch.resolveFeeRate deps.suggestedFee params = .ok fr ∧
        Bch.getAddress deps.crypto c 0 = .ok s) ∨
      call = Bch.Call.getKeys
        (c.rootDerivationPaths c.network ++ toString (jsOr params.walletIndex 0)) ∨
      (∃ hex, call = Bch.Call.broadcast hex) := by
  intro call hm
  unfold Bch.transfer at hm
  dsimp only at hm
  split at hm
  · exact Or.inl hm
  · rename_i feeRate hfe
    split at hm
    · exact Or.inl hm
    · rename_i sender hga
      split at hm
      · rcases List.mem_append.1 hm with h | h
        · exact Or.inl h
        · simp only [List.mem_singleton] at h
          exact Or.inr (Or.inl ⟨sender, feeRate, h, hfe, hga⟩)
      · split at hm
        · rcases List.mem_append.1 hm with h | h
          · exact Or.inl h
          · simp only [List.mem_cons, List.not_mem_nil, or_false] at h
            rcases h with h | h
            · exact Or.inr (Or.inl ⟨sender, feeRate, h, hfe, hga⟩)
            · exact Or.inr (Or.inr (Or.inl h))
        · split at hm <;>
          · rcases List.mem_append.1 hm with h | h
            · exact Or.inl h
            · simp only [List.mem_cons, List.not_mem_nil, or_false] at h
              rcases h with h | h | h
              · exact Or.inr (Or.inl ⟨sender, feeRate, h, hfe, hga⟩)
              · exact Or.inr (Or.inr (Or.inl h))
              · exact Or.inr (Or.inr (Or.inr ⟨_, h⟩))

/-- concrete bitcoincash collaborators for the C5 counterexample: the
suggested-fee sample is `4`, everything else succeeds. -/
def c5Deps : Bch.Deps :=
  { crypto := ⟨fun _ _ => .ok 0, fun _ _ => "a", fun s => s⟩
    suggestedFee := .ok 4
    buildTx := fun _ _ _ => .ok 0
    buildToHex := fun _ _ => "hex"
    broadcastTx := fun _ => .ok "txid" }

/-- concrete bitcoincash client state for the C5 counterexample. -/
def c5ClientState : Bch.ClientState := ⟨.mainnet, "p", fun _ => "m/"⟩

/-- concrete transfer parameters for the C5 counterexample: the caller
supplies `feeRate: 0`. -/
def c5Params : Bch.TxParams := ⟨none, 1, "rcpt", none, some 0⟩

/-- C5 counterexample: in the bitcoincash `transfer` the fee rate is resolved
with `params.feeRate || (await this.getFeeRates()).fast`, so the
caller-supplied fee rate `0` is discarded: the fee collaborator is consulted
and the transaction is built with the fast tier `4`, not with `0`. -/
theorem bch_transfer_ignores_zero_feeRate :
    c5Params.feeRate = some 0 ∧
    (Bch.transfer c5Deps c5ClientState c5Params).1 =
      [.suggestedFee, .buildTx "a" 4, .getKeys "m/0", .broadcast "hex"] ∧
    Bch.Call.buildTx "a" 0 ∉ (Bch.transfer c5Deps c5ClientState c5Params).1 := by
  refine ⟨rfl, ?_, ?_⟩ <;>
  · norm_num [Bch.transfer, Bch.resolveFeeRate, Bch.feeResolutionCalls,
      Bch.getFeeRates, Bch.feeRatesOfSample, Bch.getAddress,
      Bch.getFullDerivationPath, c5Deps, c5ClientState, c5Params, jsOr]
    rw [if_neg (by decide)]
    decide

/-- C5 amended: in the litecoin `transfer` every caller-supplied fee rate,
including `0`, is the rate the transaction is built with, and the fee
collaborator is not consulted; in the bitcoincash `transfer` this holds only
for a nonzero caller-supplied fee rate, while a missing or zero fee rate is
replaced by the fast tier computed from the suggested-fee sample. -/
theorem transfer_feeRate_resolution :
    (∀ (P : Type) (c : Client P Ltc.Wallet) (deps : Ltc.Deps)
        (params : Ltc.TxParams) (r : ℚ), params.feeRate = some r →
      Ltc.Call.suggestedFee ∉ (Ltc.transfer c deps params).1 ∧
      ∀ s fr, Ltc.Call.buildTx s fr ∈ (Ltc.transfer c deps params).1 → fr = r) ∧
    (∀ (deps : Bch.Deps) (c : Bch.ClientState) (params : Bch.TxParams) (r : ℚ),
        params.feeRate = some r → r ≠ 0 →
      Bch.Call.suggestedFee ∉ (Bch.transfer deps c params).1 ∧
      ∀ s fr, Bch.Call.buildTx s fr ∈ (Bch.transfer deps c params).1 → fr = r) ∧
    (∀ (deps : Bch.Deps) (c : Bch.ClientState) (params : Bch.TxParams) (sample : ℚ),
        (params.feeRate = none ∨ params.feeRate = some 0) →
        deps.suggestedFee = .ok sample →
      ∀ s fr, Bch.Call.buildTx s fr ∈ (Bch.transfer deps c params).1 →
        fr = (Bch.feeRatesOfSample sample).fast) := by
  refine ⟨?_, ?_, ?_⟩
  · intro P c deps params r hfr
    constructor
    · intro hm
      rcases ltc_transfer_trace_sub c deps params _ hm with h | ⟨s, h⟩ | ⟨hex, h⟩
      · rw [Ltc.feeResolutionCalls, hfr] at h
        simp at h
      · simp at h
      · simp at h
    · intro s fr hm
      rcases ltc_transfer_trace_sub c deps params _ hm with h | ⟨s2, h⟩ | ⟨hex, h⟩
      · have := ltc_feeResolutionCalls_sub params _ h
        simp at this
      · rw [Ltc.resolveFeeRate, hfr] at h
        simp at h
        exact h.2
      · simp at h
  · intro deps c params r hfr hr0
    constructor
    · intro hm
      rcases bch_transfer_trace_sub deps c params _ hm with
        h | ⟨s, fr, h, _, _⟩ | h | ⟨hex, h⟩
      · rw [Bch.feeResolutionCalls, hfr] at h
        simp [hr0] at h
      · simp at h
      · simp at h
      · simp at h
    · intro s fr hm
      rcases bch_transfer_trace_sub deps c params _ hm with
        h | ⟨s2, fr2, h, hfe, _⟩ | h | ⟨hex, h⟩
      · have := bch_feeResolutionCalls_sub params _ h
        simp at this
      · rw [Bch.resolveFeeRate, hfr] at hfe
        simp [hr0] at hfe
        simp at h
        rw [h.2, ← hfe]
      · simp at h
      · simp at h
  · intro deps c params sample hfr hs s fr hm
    rcases bch_transfer_trace_sub deps c params _ hm with
      h | ⟨s2, fr2, h, hfe, _⟩ | h | ⟨hex, h⟩
    · have := bch_feeResolutionCalls_sub params _ h
      simp at this
    · simp at h
      rw [h.2]
      rcases hfr with hfr | hfr <;>
        rw [Bch.resolveFeeRate, hfr, hs] at hfe <;>
        simp [Bch.getFeeRates] at hfe <;>
        exact hfe.symm
    · simp at h
    · simp at h

/-- concrete litecoin client for the C5 witness, unlocked. -/
def c5LtcClient : Client Unit Ltc.Wallet :=
  ⟨(), some ⟨fun _ => .ok "laddr", fun _ => .ok 7⟩⟩

/-- concrete litecoin collaborators for the C5 witness. -/
def c5LtcDeps : Ltc.Deps :=
  ⟨9, fun _ _ _ => .ok 0, fun _ _ => "lhex", fun _ => .ok "ltxid"⟩

/-- concrete litecoin transfer parameters for the C5 witness: the caller
supplies `feeRate: 0`. -/
def c5LtcParams : Ltc.TxParams := ⟨none, 1, "lrcpt", none, some 0⟩

/-- C5 witness: concrete instances of the three parts of the amended claim —
a litecoin transfer with caller fee rate `0`, a bitcoincash transfer with
caller fee rate `3`, and a bitcoincash transfer with caller fee rate `0`. -/
theorem transfer_feeRate_resolution_witness :
    (Ltc.Call.suggestedFee ∉ (Ltc.transfer c5LtcClient c5LtcDeps c5LtcParams).1 ∧
      ∀ s fr, Ltc.Call.buildTx s fr ∈ (Ltc.transfer c5LtcClient c5LtcDeps c5LtcParams).1 →
        fr = 0) ∧
    (Bch.Call.suggestedFee ∉
        (Bch.transfer c5Deps c5ClientState ⟨none, 1, "rcpt", none, some 3⟩).1 ∧
      ∀ s fr, Bch.Call.buildTx s fr ∈
        (Bch.transfer c5Deps c5ClientState ⟨none, 1, "rcpt", none, some 3⟩).1 →
        fr = 3) ∧
    (∀ s fr, Bch.Call.buildTx s fr ∈ (Bch.transfer c5Deps c5ClientState c5Params).1 →
      fr = (Bch.feeRatesOfSample 4).fast) :=
  ⟨transfer_feeRate_resolution.1 Unit c5LtcClient c5LtcDeps c5LtcParams 0 rfl,
    transfer_feeRate_resolution.2.1 c5Deps c5ClientState
      ⟨none, 1, "rcpt", none, some 3⟩ 3 rfl (by norm_num),
    transfer_feeRate_resolution.2.2 c5Deps c5ClientState c5Params 4
      (Or.inr rfl) rfl⟩

/-- C6: in every bitcoincash `transfer`, the sender handed to the transaction
builder is the address derived at index 0 — `transfer` calls `getAddress()`
with no argument — even though the signing key pair is derived at the path of
the caller-selected `walletIndex`. -/
theorem bch_transfer_sender_index_zero (deps : Bch.Deps) (c : Bch.ClientState)
    (params : Bch.TxParams) :
    (∀ s fr, Bch.Call.buildTx s fr ∈ (Bch.transfer deps c params).1 →
      Bch.getAddress deps.crypto c 0 = .ok s) ∧
    (∀ path, Bch.Call.getKeys path ∈ (Bch.transfer deps c params).1 →
      path = c.rootDerivationPaths c.network ++ toString (jsOr params.walletIndex 0)) := by
  constructor
  · intro s fr hm
    rcases bch_transfer_trace_sub deps c params _ hm with
      h | ⟨s2, fr2, h, _, hga⟩ | h | ⟨hex, h⟩
    · have := bch_feeResolutionCalls_sub params _ h
      simp at this
    · simp at h
      rw [h.1]
      exact hga
    · simp at h
    · simp at h
  · intro path hm
    rcases bch_transfer_trace_sub deps c params _ hm with
      h | ⟨s2, fr2, h, _, _⟩ | h | ⟨hex, h⟩
    · have := bch_feeResolutionCalls_sub params _ h
      simp at this
    · simp at h
    · simp at h
      exact h
    · simp at h

/-- concrete bitcoincash collaborators for the C6 witness. -/
def c6Deps : Bch.Deps :=
  { crypto := ⟨fun _ _ => .ok 0, fun _ _ => "a", fun s => s⟩
    suggestedFee := .ok 4
    buildTx := fun _ _ _ => .ok 0
    buildToHex := fun _ _ => "hex"
    broadcastTx := fun _ => .ok "txid" }

/-- concrete bitcoincash client state for the C6 witness. -/
def c6ClientState : Bch.ClientState := ⟨.mainnet, "p", fun _ => "m/"⟩

/-- concrete transfer parameters for the C6 witness: `walletIndex: 3` selects
a non-default signing index while the caller supplies `feeRate: 2`. -/
def c6Params : Bch.TxParams := ⟨some 3, 1, "rcpt", none, some 2⟩

/-- C6 witness: with `walletIndex: 3`, the builder is handed the address
derived at index 0 while the key derivation path selects index 3. -/
theorem bch_transfer_sender_index_zero_witness :
    Bch.getAddress c6Deps.crypto c6ClientState 0 = .ok "a" ∧
    "m/3" = c6ClientState.rootDerivationPaths c6ClientState.network ++
      toString (jsOr c6Params.walletIndex 0) :=
  ⟨(bch_transfer_sender_index_zero c6Deps c6ClientState c6Params).1 "a" 2 (by decide),
    (bch_transfer_sender_index_zero c6Deps c6ClientState c6Params).2 "m/3" (by decide)⟩

/-- C7: `purgeClient` is idempotent — a second call leaves the client in the
same state, with the wallet Absent — and after a successful `unlock` followed
by `purgeClient`, both `getAddress` and the litecoin `transfer` fail with the
client-locked error. -/
theorem purge_idempotent_and_locks :
    (∀ (P W : Type) (c : Client P W),
      (c.purgeClient).purgeClient = c.purgeClient ∧ (c.purgeClient).wallet = none) ∧
    (∀ (P : Type) (c : Client P Ltc.Wallet)
        (walletFactory : P → Except Err Ltc.Wallet) (w : Ltc.Wallet),
      walletFactory c.params = .ok w →
      ∀ (gA : Ltc.Wallet → ℚ → Except Err String) (index : ℚ)
        (deps : Ltc.Deps) (params : Ltc.TxParams),
      Client.getAddress gA ((c.unlock walletFactory).1.purgeClient) index =
        .error .clientLocked ∧
      Ltc.transfer ((c.unlock walletFactory).1.purgeClient) deps params =
        ([], .error .clientLocked)) := by
  constructor
  · intro P W c
    exact ⟨rfl, rfl⟩
  · intro P c walletFactory w hf gA index deps params
    exact ⟨rfl, rfl⟩

/-- C7 witness: a concrete unlock-then-purge sequence. -/
theorem purge_idempotent_and_locks_witness :
    Client.getAddress (fun w i => w.getAddress i)
      (((⟨(), none⟩ : Client Unit Ltc.Wallet).unlock
        (fun _ => .ok ⟨fun _ => .ok "laddr", fun _ => .ok 7⟩)).1.purgeClient) 0 =
      .error .clientLocked ∧
    Ltc.transfer
      (((⟨(), none⟩ : Client Unit Ltc.Wallet).unlock
        (fun _ => .ok ⟨fun _ => .ok "laddr", fun _ => .ok 7⟩)).1.purgeClient)
      ⟨9, fun _ _ _ => .ok 0, fun _ _ => "lhex", fun _ => .ok "ltxid"⟩
      ⟨none, 1, "lrcpt", none, none⟩ = ([], .error .clientLocked) :=
  purge_idempotent_and_locks.2 Unit ⟨(), none⟩
    (fun _ => .ok ⟨fun _ => .ok "laddr", fun _ => .ok 7⟩)
    ⟨fun _ => .ok "laddr", fun _ => .ok 7⟩ rfl (fun w i => w.getAddress i) 0
    ⟨9, fun _ _ _ => .ok 0, fun _ _ => "lhex", fun _ => .ok "ltxid"⟩
    ⟨none, 1, "lrcpt", none, none⟩

/-- C8: `getSuggestedTxFee` (xchain-bitcoin) recovers every collaborator
failure with the documented fallback constant `127`, and on success returns
the collaborator's `feePerKb` divided by `1000`. -/
theorem getSuggestedTxFee_fallback :
    (∀ e : Err, Btc.getSuggestedTxFee (.error e) =
      Btc.DEFAULT_SUGGESTED_TRANSACTION_FEE ∧
      Btc.DEFAULT_SUGGESTED_TRANSACTION_FEE = 127) ∧
    (∀ r : Btc.FeeEstimateResponse,
      Btc.getSuggestedTxFee (.ok r) = r.feePerKb / 1000) :=
  ⟨fun _ => ⟨rfl, rfl⟩, fun _ => rfl⟩

/-- a failing fetch for some member of the list makes the fetch loop fail as
a whole. -/
theorem fetchAll_error_of_mem (getTx : String → Except Err Ltc.RawTx)
    (l : List String) (h : String) (e : Err) (hmem : h ∈ l)
    (hfail : getTx h = .error e) :
    ∃ e2, Ltc.fetchAll getTx l = .error e2 := by
  induction l with
  | nil => cases hmem
  | cons x xs ih =>
    unfold Ltc.fetchAll
    cases hx : getTx x with
    | error e3 => exact ⟨e3, rfl⟩
    | ok raw =>
      rcases List.mem_cons.1 hmem with rfl | hmem2
      · rw [hx] at hfail
        cases hfail
      · obtain ⟨e2, h2⟩ := ih hmem2
        refine ⟨e2, ?_⟩
        simp only [h2]

/-- a successful fetch loop fetched every member of the list and converted
each of them. -/
theorem fetchAll_ok_spec (getTx : String → Except Err Ltc.RawTx)
    (l : List String) (txs : List Ltc.Tx)
    (hok : Ltc.fetchAll getTx l = .ok txs) :
    txs.length = l.length ∧ ∀ h ∈ l, ∃ raw, getTx h = .ok raw := by
  induction l generalizing txs with
  | nil =>
    unfold Ltc.fetchAll at hok
    obtain rfl : ([] : List Ltc.Tx) = txs := by
      injection hok
    simp
  | cons x xs ih =>
    unfold Ltc.fetchAll at hok
    cases hx : getTx x with
    | error e =>
      rw [hx] at hok
      cases hok
    | ok raw =>
      rw [hx] at hok
      cases hr : Ltc.fetchAll getTx xs with
      | error e =>
        rw [hr] at hok
        cases hok
      | ok txs2 =>
        rw [hr] at hok
        obtain ⟨hl, hmem⟩ := ih txs2 hr
        obtain rfl : Ltc.convertTx raw :: txs2 = txs := by
          injection hok
        constructor
        · simp [hl]
        · intro h2 hm2
          rcases List.mem_cons.1 hm2 with rfl | hm3
          · exact ⟨raw, hx⟩
          · exact hmem h2 hm3

/-- C9: if any single per-transaction fetch performed while assembling the
page fails, the whole litecoin `getTransactions` call fails; and whenever it
resolves, every transaction of the selected page was fetched successfully —
it never resolves with a partial page. -/
theorem getTransactions_all_or_nothing (deps : Ltc.HistDeps)
    (offset? limit? : Option ℕ) (txids : List String)
    (hresp : deps.getAddressTxs = .ok txids) :
    (∀ h e, h ∈ Ltc.txPage txids (offset?.getD 0) (limit?.getD 10) →
      deps.getTx h = .error e →
      ∃ e2, Ltc.getTransactions deps offset? limit? = .error e2) ∧
    (∀ p, Ltc.getTransactions deps offset? limit? = .ok p →
      p.txs.length = (Ltc.txPage txids (offset?.getD 0) (limit?.getD 10)).length ∧
      ∀ h ∈ Ltc.txPage txids (offset?.getD 0) (limit?.getD 10),
        ∃ raw, deps.getTx h = .ok raw) := by
  constructor
  · intro h e hmem hfail
    obtain ⟨e2, h2⟩ := fetchAll_error_of_mem deps.getTx _ h e hmem hfail
    refine ⟨e2, ?_⟩
    unfold Ltc.getTransactions
    rw [hresp]
    dsimp only
    rw [h2]
  · intro p hp
    unfold Ltc.getTransactions at hp
    rw [hresp] at hp
    dsimp only at hp
    cases hr : Ltc.fetchAll deps.getTx
        (Ltc.txPage txids (offset?.getD 0) (limit?.getD 10)) with
    | error e =>
      rw [hr] at hp
      cases hp
    | ok txs =>
      rw [hr] at hp
      obtain ⟨hl, hmem⟩ := fetchAll_ok_spec deps.getTx _ txs hr
      obtain rfl : ({ total := txids.length, txs := txs } : Ltc.TxsPage) = p := by
        injection hp
      exact ⟨hl, hmem⟩

/-- concrete history collaborators for the C9 witness: the address has two
transactions and the fetch of the second one fails. -/
def c9Deps : Ltc.HistDeps :=
  { getAddressTxs := .ok ["t1", "t2"]
    getTx := fun h =>
      if h = "t2" then .error (.collaborator "boom") else .ok ⟨"t1", 0, [], []⟩ }

/-- C9 witness: the failing second fetch aborts the whole call. -/
theorem getTransactions_all_or_nothing_witness :
    ∃ e2, Ltc.getTransactions c9Deps none none = .error e2 :=
  (getTransactions_all_or_nothing c9Deps none none ["t1", "t2"] rfl).1
    "t2" (.collaborator "boom") (by decide) rfl

/-- C10: wallet address derivation is deterministic — two wallets created
from the same phrase and the same wallet params (binance and cosmos
`DefaultWallet.create`) return the same address for the same index. -/
theorem wallet_derivation_deterministic :
    (∀ (crypto : Bnb.Crypto) (phrase : String) (params : Bnb.WalletParams)
        (w1 w2 : Bnb.Wallet) (index : ℚ),
      Bnb.create crypto phrase params = .ok w1 →
      Bnb.create crypto phrase params = .ok w2 →
      Bnb.getAddress crypto w1 index = Bnb.getAddress crypto w2 index) ∧
    (∀ (crypto : Cosmos.Crypto) (phrase : String) (path : ℚ → String)
        (w1 w2 : Cosmos.Wallet) (index : ℚ),
      Cosmos.create crypto phrase path = .ok w1 →
      Cosmos.create crypto phrase path = .ok w2 →
      Cosmos.getAddress crypto w1 index = Cosmos.getAddress crypto w2 index) := by
  constructor
  · intro crypto phrase params w1 w2 index h1 h2
    rw [h1] at h2
    obtain rfl : w1 = w2 := by injection h2
    rfl
  · intro crypto phrase path w1 w2 index h1 h2
    rw [h1] at h2
    obtain rfl : w1 = w2 := by injection h2
    rfl

/-- concrete crypto primitives for the C10 witness. -/
def c10BnbCrypto : Bnb.Crypto :=
  ⟨fun _ => true, fun _ => 0, fun _ _ => some 1, fun _ pre => pre ++ "1q"⟩

/-- concrete wallet params for the C10 witness. -/
def c10BnbParams : Bnb.WalletParams := ⟨.mainnet, fun i => "44/" ++ toString i⟩

/-- C10 witness: two creations from the same phrase and params agree at
index 5. -/
theorem wallet_derivation_deterministic_witness :
    Bnb.getAddress c10BnbCrypto ⟨c10BnbParams, "ph"⟩ 5 =
      Bnb.getAddress c10BnbCrypto ⟨c10BnbParams, "ph"⟩ 5 :=
  wallet_derivation_deterministic.1 c10BnbCrypto "ph" c10BnbParams
    ⟨c10BnbParams, "ph"⟩ ⟨c10BnbParams, "ph"⟩ 5 rfl rfl
theorem feeRate_schedule_witness :
    (0 : ℚ) ≤ 20 ∧
    (Ltc.getFeeRates 20 = ⟨0.5 * 20, 1 * 20, 5 * 20⟩ ∧
      Bch.feeRatesOfSample 20 = ⟨0.5 * 20, 1 * 20, 5 * 20⟩ ∧
      ((Ltc.getFeeRates 20).average ≤ (Ltc.getFeeRates 20).fast ∧
        (Ltc.getFeeRates 20).fast ≤ (Ltc.getFeeRates 20).fastest) ∧
      ((Bch.feeRatesOfSample 20).average ≤ (Bch.feeRatesOfSample 20).fast ∧
        (Bch.feeRatesOfSample 20).fast ≤ (Bch.feeRatesOfSample 20).fastest)) :=
  ⟨by norm_num, feeRate_schedule 20 (by norm_num)⟩
